import Mathlib

/-!
Shallow embedding of the poly-trader webhook worker.

The repository holds two near-duplicate Cloudflare-worker sources:
`src/worker.js` (Node-compat build of the exchange client) and
`src/unnamed/part_000` (browser build).  Each file implements the same
request pipeline: HMAC signature check, payload validation, market/token
resolution against the Gamma metadata service, price/size computation and
order submission through the exchange client.

Modelling conventions:
* JavaScript numbers are modelled exactly: a value is NaN, +Infinity,
  -Infinity or a finite rational.  IEEE rounding and signed zero are not
  modelled; every claim is stated over exact arithmetic.
* JavaScript strings that flow through `charCodeAt` (signature, digest)
  are modelled as lists of natural-number char codes; `toLowerCase` is
  modelled on the ASCII range, which covers every hex digest involved.
* The Web Crypto HMAC-SHA256 primitive (`crypto.subtle`) is modelled by a
  full executable SHA-256 / HMAC implementation over byte lists.
* External collaborators (the Gamma fetch, the Wallet constructor, the
  exchange client calls) are oracles supplied as explicit inputs; the
  pipeline records each outward call it performs in an effect list.
* `JSON.parse` is a platform primitive; its outcome on the raw body is
  supplied as an explicit input (`none` models a parse throw).
-/

namespace PolyTrader

/-- Exact model of a JavaScript number: NaN, the two infinities, or a
finite rational value. -/
inductive JsNum where
  | nan
  | inf
  | ninf
  | fin (q : ℚ)
deriving DecidableEq, Repr

/-- JavaScript truthiness of a number: 0 and NaN are falsy. -/
def truthyNum : JsNum → Bool
  | .nan => false
  | .inf => true
  | .ninf => true
  | .fin q => q != 0

/-- `Number.isFinite`. -/
def jsIsFinite : JsNum → Bool
  | .fin _ => true
  | _ => false

/-- JavaScript `+` on numbers (exact rationals, no rounding). -/
def jsAdd : JsNum → JsNum → JsNum
  | .nan, _ => .nan
  | _, .nan => .nan
  | .inf, .ninf => .nan
  | .ninf, .inf => .nan
  | .inf, _ => .inf
  | _, .inf => .inf
  | .ninf, _ => .ninf
  | _, .ninf => .ninf
  | .fin a, .fin b => .fin (a + b)

/-- JavaScript `*` on numbers (exact rationals, no rounding). -/
def jsMul : JsNum → JsNum → JsNum
  | .nan, _ => .nan
  | _, .nan => .nan
  | .inf, .inf => .inf
  | .inf, .ninf => .ninf
  | .ninf, .inf => .ninf
  | .ninf, .ninf => .inf
  | .inf, .fin b => if b = 0 then .nan else if 0 < b then .inf else .ninf
  | .fin a, .inf => if a = 0 then .nan else if 0 < a then .inf else .ninf
  | .ninf, .fin b => if b = 0 then .nan else if 0 < b then .ninf else .inf
  | .fin a, .ninf => if a = 0 then .nan else if 0 < a then .ninf else .inf
  | .fin a, .fin b => .fin (a * b)

/-- JavaScript `/` on numbers (exact rationals; signed zero not modelled,
so a finite value divided by zero takes the sign of the numerator). -/
def jsDiv : JsNum → JsNum → JsNum
  | .nan, _ => .nan
  | _, .nan => .nan
  | .inf, .inf => .nan
  | .inf, .ninf => .nan
  | .ninf, .inf => .nan
  | .ninf, .ninf => .nan
  | .inf, .fin b => if 0 ≤ b then .inf else .ninf
  | .ninf, .fin b => if 0 ≤ b then .ninf else .inf
  | .fin _, .inf => .fin 0
  | .fin _, .ninf => .fin 0
  | .fin a, .fin b =>
    if b = 0 then (if a = 0 then .nan else if 0 < a then .inf else .ninf)
    else .fin (a / b)

/-- JavaScript truthiness of an optional string (absent or empty is falsy). -/
def truthyOptStr : Option String → Bool
  | none => false
  | some s => s != ""

/-- JavaScript truthiness of an optional number field. -/
def truthyOptNum : Option JsNum → Bool
  | none => false
  | some v => truthyNum v

/-- JavaScript `a || b` on optional string fields: yields `b` whenever `a`
is absent or empty. -/
def jsStrOr : Option String → Option String → Option String
  | none, b => b
  | some s, b => if s = "" then b else some s

/-- ASCII `toLowerCase` on a char code (the only case the worker exercises:
hex digests and hex signatures). -/
def lowerAscii (c : Nat) : Nat := if 65 ≤ c ∧ c ≤ 90 then c + 32 else c

/-- ASCII `toUpperCase` on a char code (used to build case-variant
signatures in counterexamples). -/
def upperAscii (c : Nat) : Nat := if 97 ≤ c ∧ c ≤ 122 then c - 32 else c

/-! ### SHA-256 and HMAC-SHA256 over byte lists

Model of the Web Crypto `crypto.subtle` HMAC-SHA256 primitive used by
`verifyHmac` in both worker sources.  Bytes are naturals below 256; words
are naturals reduced mod 2^32. -/

/-- Truncate to a 32-bit word. -/
def w32 (x : Nat) : Nat := x % 4294967296

/-- 32-bit right rotation. -/
def rotr (n x : Nat) : Nat := w32 ((x >>> n) ||| (x <<< (32 - n)))

def bsig0 (x : Nat) : Nat := (rotr 2 x) ^^^ (rotr 13 x) ^^^ (rotr 22 x)

def bsig1 (x : Nat) : Nat := (rotr 6 x) ^^^ (rotr 11 x) ^^^ (rotr 25 x)

def ssig0 (x : Nat) : Nat := (rotr 7 x) ^^^ (rotr 18 x) ^^^ (x >>> 3)

def ssig1 (x : Nat) : Nat := (rotr 17 x) ^^^ (rotr 19 x) ^^^ (x >>> 10)

def ch (x y z : Nat) : Nat := (x &&& y) ^^^ ((x ^^^ 4294967295) &&& z)

def maj (x y z : Nat) : Nat := (x &&& y) ^^^ (x &&& z) ^^^ (y &&& z)

/-- The 64 SHA-256 round constants. -/
def K256 : List Nat :=
  [1116352408, 1899447441, 3049323471, 3921009573, 961987163, 1508970993,
   2453635748, 2870763221, 3624381080, 310598401, 607225278, 1426881987,
   1925078388, 2162078206, 2614888103, 3248222580, 3835390401, 4022224774,
   264347078, 604807628, 770255983, 1249150122, 1555081692, 1996064986,
   2554220882, 2821834349, 2952996808, 3210313671, 3336571891, 3584528711,
   113926993, 338241895, 666307205, 773529912, 1294757372, 1396182291,
   1695183700, 1986661051, 2177026350, 2456956037, 2730485921, 2820302411,
   3259730800, 3345764771, 3516065817, 3600352804, 4094571909, 275423344,
   430227734, 506948616, 659060556, 883997877, 958139571, 1322822218,
   1537002063, 1747873779, 1955562222, 2024104815, 2227730452, 2361852424,
   2428436474, 2756734187, 3204031479, 3329325298]

/-- The SHA-256 initial hash state. -/
def sha256Init : List Nat :=
  [1779033703, 3144134277, 1013904242, 2773480762,
   1359893119, 2600822924, 528734635, 1541459225]

/-- SHA-256 message padding: append 0x80, zero fill, 64-bit big-endian
bit length. -/
def padMsg (msg : List Nat) : List Nat :=
  let len := msg.length
  let z := (64 - (len + 9) % 64) % 64
  let bitLen := 8 * len
  msg ++ [128] ++ List.replicate z 0 ++
    ((List.range 8).map (fun i => (bitLen >>> (8 * (7 - i))) % 256))

def chunksAux : Nat → List Nat → List (List Nat)
  | 0, _ => []
  | n+1, l => l.take 64 :: chunksAux n (l.drop 64)

/-- Split a padded message into 64-byte blocks. -/
def chunks64 (l : List Nat) : List (List Nat) := chunksAux (l.length / 64) l

/-- The 16 big-endian 32-bit words of one block. -/
def blockWords (b : List Nat) : List Nat :=
  (List.range 16).map (fun i =>
    (b.getD (4*i) 0) <<< 24 ||| (b.getD (4*i+1) 0) <<< 16 |||
    (b.getD (4*i+2) 0) <<< 8 ||| (b.getD (4*i+3) 0))

/-- Extend the 16 block words to the 64-entry message schedule. -/
def msgSchedule (b : List Nat) : Array Nat :=
  (List.range 48).foldl
    (fun w _ =>
      let t := w.size
      w.push (w32 (ssig1 (w.getD (t-2) 0) + w.getD (t-7) 0 + ssig0 (w.getD (t-15) 0) + w.getD (t-16) 0)))
    (blockWords b).toArray

/-- One SHA-256 compression step over a 64-byte block. -/
def compress (h : List Nat) (b : List Nat) : List Nat :=
  let w := msgSchedule b
  let s := (List.range 64).foldl
    (fun s t =>
      let a := s.getD 0 0; let bb := s.getD 1 0; let c := s.getD 2 0; let d := s.getD 3 0
      let e := s.getD 4 0; let f := s.getD 5 0; let g := s.getD 6 0; let hh := s.getD 7 0
      let t1 := w32 (hh + bsig1 e + ch e f g + K256.getD t 0 + w.getD t 0)
      let t2 := w32 (bsig0 a + maj a bb c)
      [w32 (t1 + t2), a, bb, c, w32 (d + t1), e, f, g])
    h
  List.zipWith (fun x y => w32 (x + y)) h s

/-- SHA-256 of a byte list, as a 32-byte list. -/
def sha256 (msg : List Nat) : List Nat :=
  let hs := (chunks64 (padMsg msg)).foldl compress sha256Init
  (hs.map (fun w => [(w >>> 24) % 256, (w >>> 16) % 256, (w >>> 8) % 256, w % 256])).flatten

/-- HMAC-SHA256 (RFC 2104) of a message under a key, both byte lists. -/
def hmacSha256 (key msg : List Nat) : List Nat :=
  let k0 := if key.length > 64 then sha256 key else key
  let kp := k0 ++ List.replicate (64 - k0.length) 0
  sha256 ((kp.map (fun b => b ^^^ 0x5c)) ++ sha256 ((kp.map (fun b => b ^^^ 0x36)) ++ msg))

/-- One lowercase hex digit char code (`toString(16)` digit alphabet). -/
def hexDig (n : Nat) : Nat := if n < 10 then 48 + n else 87 + n

/-- Lowercase hex rendering of a byte list as char codes, two digits per
byte (`b.toString(16).padStart(2, "0")` joined). -/
def hexEncode (bs : List Nat) : List Nat :=
  (bs.map (fun b => [hexDig (b / 16), hexDig (b % 16)])).flatten

/-! ### Data model shared by both worker sources -/

/-- Outcome of a JavaScript expression that can throw: a value or a thrown
message (`e.message`). -/
inductive JsResult (α : Type) where
  | ok (val : α)
  | exn (msg : String)
deriving DecidableEq, Repr

/-- One token record of a Gamma market descriptor; either field name may
carry the identifier and either may be absent. -/
structure GToken where
  token_id : Option String := none
  tokenId : Option String := none
deriving DecidableEq, Repr

/-- A Gamma market descriptor as consumed by `resolveTokenId`: outcome
display names, token records and optional best-ask quotes, slot-aligned.
A `none` element of `best_ask` models a JSON `null` entry. -/
structure GMarket where
  outcomes : Option (List String) := none
  tokens : Option (List GToken) := none
  best_ask : Option (List (Option JsNum)) := none
deriving DecidableEq, Repr

/-- The JSON body of a Gamma response: either not an array (fails the
`Array.isArray` check) or a list of market descriptors. -/
inductive GammaBody where
  | notArray
  | arr (ms : List GMarket)
deriving DecidableEq, Repr

/-- An HTTP response from the Gamma fetch: `ok` flag, status code and the
outcome of `r.json()` (which may itself throw). -/
structure GammaResp where
  ok : Bool
  status : Nat
  jsonBody : JsResult GammaBody
deriving DecidableEq, Repr

/-- Behaviour of the `fetch` call to the metadata service: the fetch
promise rejects with a message, or delivers a response. -/
inductive FetchOutcome where
  | thrown (msg : String)
  | got (r : GammaResp)
deriving DecidableEq, Repr

/-- Result object of `resolveTokenId`. -/
inductive ResolveResult where
  | ok (tokenId : String) (priceFromBook : Option JsNum)
  | err (error : String)
deriving DecidableEq, Repr

/-- The order record handed to `client.place`. -/
structure ClobOrder where
  token_id : String
  price : JsNum
  size : JsNum
  side : Nat
  client_order_id : String
  time_in_force : String
  post_only : Bool
deriving DecidableEq, Repr

/-- Outward calls performed by one request, in order. -/
inductive Effect where
  | metadataLookup
  | createApiKey
  | placeOrder (o : ClobOrder)
deriving DecidableEq, Repr

/-- The parsed JSON payload of a trade request.  Fields are modelled at the
JSON types the worker reads them at: identifiers and side as strings,
numeric fields as numbers; `none` models an absent field. -/
structure Payload where
  conditionId : Option String := none
  marketId : Option String := none
  side : Option String := none
  ask : Option JsNum := none
  amountUsd : Option JsNum := none
  slippage : Option JsNum := none
deriving DecidableEq, Repr

/-- Worker environment bindings used by the pipeline.  The shared secret
is a byte list; `none` models an unset binding. -/
structure Env where
  HUD_SHARED_SECRET : Option (List Nat) := none
deriving DecidableEq, Repr

/-- One incoming request: the `X-HUD-Signature` header as char codes
(`none` = header absent), the raw body bytes, and the outcome of
`JSON.parse` on that body (`none` models a parse throw). -/
structure Req where
  sigHeader : Option (List Nat) := none
  body : List Nat := []
  parsedBody : Option Payload := none
deriving DecidableEq, Repr

/-- Behaviour of the external collaborators for one request: the Gamma
fetch, the `Wallet` constructor, `createOrDeriveApiKey`, `place`, and the
`Date.now` clock. -/
structure Ext where
  fetchOutcome : FetchOutcome
  walletResult : JsResult Unit
  createKeyResult : JsResult Unit
  placeResult : JsResult String
  now : Nat
deriving DecidableEq, Repr

/-- The computed fills record of a success response. -/
structure Fills where
  sharesBought : JsNum
  avgPrice : JsNum
  costUsd : JsNum
deriving DecidableEq, Repr

/-- The meta record of a success response. -/
structure TradeMeta where
  tokenId : String
  priceFromBook : Option JsNum
deriving DecidableEq, Repr

/-- A JSON response body produced by the worker. -/
inductive RespBody where
  | errB (error : String)
  | health (time : Nat)
  | success (order : String) (fills : Fills) (meta : TradeMeta)
  | notFoundText
deriving DecidableEq, Repr

/-- An HTTP response: status code and body. -/
structure HttpOut where
  status : Nat
  body : RespBody
deriving DecidableEq, Repr

/-- Char codes of the header scheme tag sha256= checked by `startsWith`. -/
def sigTag : List Nat := [115, 104, 97, 50, 53, 54, 61]

/-- `String.prototype.startsWith` on char-code lists. -/
def listStartsWith (l tag : List Nat) : Bool := l.take tag.length == tag

/-- `m.tokens?.[use]`: optional chaining plus indexing. -/
def tokAt (tokens : Option (List GToken)) (i : Nat) : Option GToken :=
  match tokens with
  | none => none
  | some ts => ts[i]?

/-- `String.prototype.trim`: strip whitespace from both ends (structural
model of the platform trim used on outcome names). -/
def jsTrim (s : String) : String :=
  ⟨((s.data.dropWhile Char.isWhitespace).reverse.dropWhile Char.isWhitespace).reverse⟩

/-- `arr.findIndex(p)`: index of the first match, `-1` when none. -/
def jsFindIndex (l : List String) (p : String → Bool) : Int :=
  match l.findIdx? p with
  | some i => (i : Int)
  | none => -1

/-! ### `src/worker.js` (namespace `W1`) -/

namespace W1

/-- `clamp01` from `src/worker.js`: non-finite input becomes NaN, finite
input is bounded to the inclusive interval from 0 to 1. -/
def clamp01 (x : JsNum) : JsNum :=
  match x with
  | .fin q => .fin (max 0 (min 1 q))
  | _ => .nan

/-- `timingSafeEqual` from `src/worker.js`: length-first check, then one
pass over all positions accumulating XORed char-code differences with
bitwise OR. -/
def timingSafeEqual (a b : List Nat) : Bool :=
  if a.length ≠ b.length then false
  else ((a.zip b).foldl (fun x p => x ||| (p.1 ^^^ p.2)) 0) == 0

/-- `verifyHmac` from `src/worker.js`: falsy secret fails closed;
otherwise the lowercase-hex HMAC-SHA256 digest of the message is compared
to the lowercased presented signature with `timingSafeEqual`. -/
def verifyHmac (secret : Option (List Nat)) (message hexSig : List Nat) : Bool :=
  match secret with
  | none => false
  | some s =>
    if s.length = 0 then false
    else timingSafeEqual (hexEncode (hmacSha256 s message)) (hexSig.map lowerAscii)

/-- Slot selection and extraction of `resolveTokenId` from `src/worker.js`
once the first market descriptor is in hand (lines 66 to 78). -/
def resolveFromMarket (m : GMarket) (side : String) : ResolveResult :=
  let wantNames : List String := if side == "YES" then ["Up", "Yes", "YES"] else ["Down", "No", "NO"]
  let idx := jsFindIndex (m.outcomes.getD []) (fun o => wantNames.contains (jsTrim o))
  let use : Nat := if 0 ≤ idx then idx.toNat else if side == "YES" then 0 else 1
  let tid := jsStrOr ((tokAt m.tokens use).bind GToken.token_id) ((tokAt m.tokens use).bind GToken.tokenId)
  if truthyOptStr tid = false then .err "Missing tokenId"
  else
    let priceFromBook : Option JsNum :=
      match m.best_ask with
      | none => none
      | some ba =>
        match ba[use]? with
        | none => none
        | some none => none
        | some (some v) => if jsIsFinite v then some (clamp01 v) else none
    .ok (tid.getD "") priceFromBook

/-- `resolveTokenId` from `src/worker.js`: builds the Gamma lookup when an
identifier is present, translates fetch and shape failures, then selects
the outcome slot.  Returns the outward calls performed alongside the
result object. -/
def resolveTokenId (fetchO : FetchOutcome) (conditionId marketId : Option String)
    (side : String) : List Effect × ResolveResult :=
  if truthyOptStr conditionId || truthyOptStr marketId then
    match fetchO with
    | .thrown m => ([.metadataLookup], .err ("resolveTokenId error: " ++ m))
    | .got r =>
      if r.ok = false then ([.metadataLookup], .err ("Gamma API " ++ toString r.status))
      else
        match r.jsonBody with
        | .exn m => ([.metadataLookup], .err ("resolveTokenId error: " ++ m))
        | .ok .notArray => ([.metadataLookup], .err "No market found")
        | .ok (.arr []) => ([.metadataLookup], .err "No market found")
        | .ok (.arr (m :: _)) => ([.metadataLookup], resolveFromMarket m side)
  else ([], .err "No conditionId/marketId to resolve tokenId")

/-- The effective slippage used at line 115 of `src/worker.js`: the
destructuring default 0.01 applies only when the field is absent, and a
present falsy value collapses to 0 through `slippage || 0`. -/
def effSlippage (p : Payload) : JsNum :=
  let s := p.slippage.getD (.fin (1/100))
  if truthyNum s then s else .fin 0

/-- `handleTrade` from `src/worker.js`.  Returns the outward calls in
order plus either a response or a thrown message (which the top-level
`fetch` handler converts to a 500). -/
def handleTrade (env : Env) (req : Req) (ext : Ext) : List Effect × JsResult HttpOut :=
  let sig := (req.sigHeader.getD [])
  if listStartsWith sig sigTag = false then
    ([], .ok ⟨401, .errB "Missing/invalid signature"⟩)
  else if verifyHmac env.HUD_SHARED_SECRET req.body (sig.drop 7) = false then
    ([], .ok ⟨401, .errB "Signature mismatch"⟩)
  else
    match req.parsedBody with
    | none => ([], .ok ⟨400, .errB "Bad JSON"⟩)
    | some p =>
      let sideV := p.side.getD ""
      if (truthyOptStr p.side && truthyOptNum p.amountUsd && truthyOptNum p.ask) = false then
        ([], .ok ⟨400, .errB "Missing side/amountUsd/ask"⟩)
      else if (sideV == "YES" || sideV == "NO") = false then
        ([], .ok ⟨400, .errB "side must be YES or NO"⟩)
      else
        match resolveTokenId ext.fetchOutcome p.conditionId p.marketId sideV with
        | (effs, .err e) => (effs, .ok ⟨400, .errB e⟩)
        | (effs, .ok tid pfb) =>
          let price := clamp01 (jsMul (p.ask.getD .nan) (jsAdd (.fin 1) (effSlippage p)))
          let shares := jsDiv (p.amountUsd.getD .nan) price
          match ext.walletResult with
          | .exn m => (effs, .exn m)
          | .ok _ =>
            match ext.createKeyResult with
            | .exn m => (effs ++ [.createApiKey], .exn m)
            | .ok _ =>
              let clobSide : Nat := if sideV == "YES" then 0 else 1
              let order : ClobOrder :=
                ⟨tid, price, shares, clobSide, "hud-" ++ toString ext.now, "IOC", false⟩
              match ext.placeResult with
              | .ok placed =>
                (effs ++ [.createApiKey, .placeOrder order],
                 .ok ⟨200, .success placed ⟨shares, price, jsMul shares price⟩ ⟨tid, pfb⟩⟩)
              | .exn m =>
                (effs ++ [.createApiKey, .placeOrder order],
                 .ok ⟨502, .errB ("place() failed: " ++ m)⟩)

/-- The exported `fetch` handler of `src/worker.js`: routing plus the
top-level try/catch that turns an uncaught throw into a 500. -/
def workerFetch (env : Env) (req : Req) (ext : Ext) (path method : String) :
    List Effect × HttpOut :=
  if path == "/health" then ([], ⟨200, .health ext.now⟩)
  else if path == "/trade" && method == "POST" then
    match handleTrade env req ext with
    | (effs, .ok r) => (effs, r)
    | (effs, .exn m) => (effs, ⟨500, .errB m⟩)
  else ([], ⟨404, .notFoundText⟩)

end W1

/-! ### `src/unnamed/part_000` (namespace `W2`) -/

namespace W2

/-- `clamp01` from `src/unnamed/part_000` (line 131). -/
def clamp01 (x : JsNum) : JsNum :=
  match x with
  | .fin q => .fin (max 0 (min 1 q))
  | _ => .nan

/-- `timingSafeEqual` from `src/unnamed/part_000` (line 130). -/
def timingSafeEqual (a b : List Nat) : Bool :=
  if a.length ≠ b.length then false
  else ((a.zip b).foldl (fun x p => x ||| (p.1 ^^^ p.2)) 0) == 0

/-- `verifyHmac` from `src/unnamed/part_000` (lines 119 to 128). -/
def verifyHmac (secret : Option (List Nat)) (message hexSig : List Nat) : Bool :=
  match secret with
  | none => false
  | some s =>
    if s.length = 0 then false
    else timingSafeEqual (hexEncode (hmacSha256 s message)) (hexSig.map lowerAscii)

/-- Slot selection and extraction of `resolveTokenId` from
`src/unnamed/part_000` (lines 101 to 112). -/
def resolveFromMarket (m : GMarket) (side : String) : ResolveResult :=
  let wantNames : List String := if side == "YES" then ["Up", "Yes", "YES"] else ["Down", "No", "NO"]
  let idx := jsFindIndex (m.outcomes.getD []) (fun o => wantNames.contains (jsTrim o))
  let use : Nat := if 0 ≤ idx then idx.toNat else if side == "YES" then 0 else 1
  let tid := jsStrOr ((tokAt m.tokens use).bind GToken.token_id) ((tokAt m.tokens use).bind GToken.tokenId)
  if truthyOptStr tid = false then .err "Missing tokenId"
  else
    let priceFromBook : Option JsNum :=
      match m.best_ask with
      | none => none
      | some ba =>
        match ba[use]? with
        | none => none
        | some none => none
        | some (some v) => if jsIsFinite v then some (clamp01 v) else none
    .ok (tid.getD "") priceFromBook

/-- `resolveTokenId` from `src/unnamed/part_000` (lines 85 to 116). -/
def resolveTokenId (fetchO : FetchOutcome) (conditionId marketId : Option String)
    (side : String) : List Effect × ResolveResult :=
  if truthyOptStr conditionId || truthyOptStr marketId then
    match fetchO with
    | .thrown m => ([.metadataLookup], .err ("resolveTokenId error: " ++ m))
    | .got r =>
      if r.ok = false then ([.metadataLookup], .err ("Gamma API " ++ toString r.status))
      else
        match r.jsonBody with
        | .exn m => ([.metadataLookup], .err ("resolveTokenId error: " ++ m))
        | .ok .notArray => ([.metadataLookup], .err "No market found")
        | .ok (.arr []) => ([.metadataLookup], .err "No market found")
        | .ok (.arr (m :: _)) => ([.metadataLookup], resolveFromMarket m side)
  else ([], .err "No conditionId/marketId to resolve tokenId")

/-- The effective slippage used at line 46 of `src/unnamed/part_000`. -/
def effSlippage (p : Payload) : JsNum :=
  let s := p.slippage.getD (.fin (1/100))
  if truthyNum s then s else .fin 0

/-- `handleTrade` from `src/unnamed/part_000` (lines 24 to 83).  The only
structural difference from `src/worker.js` is that the success response is
built after the try/catch around `client.place` rather than inside it. -/
def handleTrade (env : Env) (req : Req) (ext : Ext) : List Effect × JsResult HttpOut :=
  let sig := (req.sigHeader.getD [])
  if listStartsWith sig sigTag = false then
    ([], .ok ⟨401, .errB "Missing/invalid signature"⟩)
  else if verifyHmac env.HUD_SHARED_SECRET req.body (sig.drop 7) = false then
    ([], .ok ⟨401, .errB "Signature mismatch"⟩)
  else
    match req.parsedBody with
    | none => ([], .ok ⟨400, .errB "Bad JSON"⟩)
    | some p =>
      let sideV := p.side.getD ""
      if (truthyOptStr p.side && truthyOptNum p.amountUsd && truthyOptNum p.ask) = false then
        ([], .ok ⟨400, .errB "Missing side/amountUsd/ask"⟩)
      else if (sideV == "YES" || sideV == "NO") = false then
        ([], .ok ⟨400, .errB "side must be YES or NO"⟩)
      else
        match resolveTokenId ext.fetchOutcome p.conditionId p.marketId sideV with
        | (effs, .err e) => (effs, .ok ⟨400, .errB e⟩)
        | (effs, .ok tid pfb) =>
          let price := clamp01 (jsMul (p.ask.getD .nan) (jsAdd (.fin 1) (effSlippage p)))
          let shares := jsDiv (p.amountUsd.getD .nan) price
          match ext.walletResult with
          | .exn m => (effs, .exn m)
          | .ok _ =>
            match ext.createKeyResult with
            | .exn m => (effs ++ [.createApiKey], .exn m)
            | .ok _ =>
              let clobSide : Nat := if sideV == "YES" then 0 else 1
              let order : ClobOrder :=
                ⟨tid, price, shares, clobSide, "hud-" ++ toString ext.now, "IOC", false⟩
              match ext.placeResult with
              | .exn m =>
                (effs ++ [.createApiKey, .placeOrder order],
                 .ok ⟨502, .errB ("place() failed: " ++ m)⟩)
              | .ok placed =>
                (effs ++ [.createApiKey, .placeOrder order],
                 .ok ⟨200, .success placed ⟨shares, price, jsMul shares price⟩ ⟨tid, pfb⟩⟩)

/-- The exported `fetch` handler of `src/unnamed/part_000` (lines 7 to 22). -/
def workerFetch (env : Env) (req : Req) (ext : Ext) (path method : String) :
    List Effect × HttpOut :=
  if path == "/health" then ([], ⟨200, .health ext.now⟩)
  else if path == "/trade" && method == "POST" then
    match handleTrade env req ext with
    | (effs, .ok r) => (effs, r)
    | (effs, .exn m) => (effs, ⟨500, .errB m⟩)
  else ([], ⟨404, .notFoundText⟩)

end W2

/-! ### Helper lemmas: bitwise accumulation, hex case stability, HMAC
verification characterization -/

lemma or_eq_zero_left {x y : Nat} (h : x ||| y = 0) : x = 0 := by
  have hb : ∀ i, x.testBit i = false := by
    intro i
    have hi := congrArg (fun n => n.testBit i) h
    simp [Nat.testBit_or] at hi
    exact hi.1
  exact Nat.eq_of_testBit_eq (fun i => by simp [hb i])

/-- The OR-accumulating fold of `timingSafeEqual` never returns to zero
once the accumulator is nonzero (no information about later positions can
cancel an earlier mismatch). -/
lemma tseFold_ne_zero (l : List (Nat × Nat)) :
    ∀ x : Nat, x ≠ 0 → l.foldl (fun x p => x ||| (p.1 ^^^ p.2)) x ≠ 0 := by
  induction l with
  | nil => intro x hx; exact hx
  | cons p ps ih =>
    intro x hx
    simp only [List.foldl_cons]
    exact ih _ (fun h0 => hx (or_eq_zero_left h0))

/-- The OR-accumulating fold over a zipped pair of equal-length lists is
zero exactly when the lists are equal. -/
lemma tseFold_eq_zero_iff :
    ∀ (a b : List Nat), a.length = b.length →
      ((a.zip b).foldl (fun x p => x ||| (p.1 ^^^ p.2)) 0 = 0 ↔ a = b) := by
  intro a
  induction a with
  | nil =>
    intro b hb
    cases b with
    | nil => simp
    | cons y ys => simp at hb
  | cons x xs ih =>
    intro b hb
    cases b with
    | nil => simp at hb
    | cons y ys =>
      simp only [List.zip_cons_cons, List.foldl_cons, Nat.zero_or]
      by_cases hxy : x = y
      · subst hxy
        simp only [Nat.xor_self]
        rw [ih ys (by simpa using hb)]
        simp
      · have hne : (x ^^^ y) ≠ 0 := fun hz => hxy (Nat.xor_eq_zero.mp hz)
        constructor
        · intro h0
          exact absurd h0 (tseFold_ne_zero _ _ hne)
        · intro he
          injection he with h1 h2
          exact absurd h1 hxy

/-- `timingSafeEqual` decides exact equality of char-code lists. -/
lemma tse_iff (a b : List Nat) : W1.timingSafeEqual a b = true ↔ a = b := by
  unfold W1.timingSafeEqual
  by_cases h : a.length = b.length
  · rw [if_neg (by simp [h])]
    rw [beq_iff_eq]
    exact tseFold_eq_zero_iff a b h
  · rw [if_pos h]
    simp only [Bool.false_eq_true, false_iff]
    exact fun he => h (he ▸ rfl)

/-- ASCII lowercasing fixes every hex digit produced by `hexDig`. -/
lemma lowerAscii_hexDig (n : Nat) : lowerAscii (hexDig n) = hexDig n := by
  unfold lowerAscii hexDig
  split_ifs <;> omega

/-- ASCII uppercasing then lowercasing restores every `hexDig` digit. -/
lemma lower_upper_hexDig (n : Nat) : lowerAscii (upperAscii (hexDig n)) = hexDig n := by
  unfold lowerAscii upperAscii hexDig
  split_ifs <;> omega

/-- Unfolding of `hexEncode` on a cons cell. -/
lemma hexEncode_cons (b : Nat) (bs : List Nat) :
    hexEncode (b :: bs) = hexDig (b / 16) :: hexDig (b % 16) :: hexEncode bs := by
  simp [hexEncode]

/-- Any char-code map that fixes hex digits fixes a hex rendering. -/
lemma hexEncode_map_fixed (f : Nat → Nat) (hf : ∀ n, f (hexDig n) = hexDig n) :
    ∀ bs : List Nat, (hexEncode bs).map f = hexEncode bs := by
  intro bs
  induction bs with
  | nil => rfl
  | cons b bs ih =>
    rw [hexEncode_cons, List.map_cons, List.map_cons, hf, hf, ih]

/-- `verifyHmac` with a nonempty secret succeeds exactly when the
lowercased presented signature equals the lowercase-hex digest. -/
lemma verifyHmac_iff (s msg sig : List Nat) (hs : s ≠ []) :
    W1.verifyHmac (some s) msg sig = true ↔
      sig.map lowerAscii = hexEncode (hmacSha256 s msg) := by
  show (if s.length = 0 then false
        else W1.timingSafeEqual (hexEncode (hmacSha256 s msg)) (sig.map lowerAscii)) = true ↔ _
  rw [if_neg (by simpa using hs)]
  rw [tse_iff]
  exact eq_comm

/-- The genuine digest verifies. -/
lemma verifyHmac_self (s msg : List Nat) (hs : s ≠ []) :
    W1.verifyHmac (some s) msg (hexEncode (hmacSha256 s msg)) = true := by
  rw [verifyHmac_iff _ _ _ hs]
  exact hexEncode_map_fixed lowerAscii lowerAscii_hexDig _

/-- The uppercased digest also verifies. -/
lemma verifyHmac_upper (s msg : List Nat) (hs : s ≠ []) :
    W1.verifyHmac (some s) msg ((hexEncode (hmacSha256 s msg)).map upperAscii) = true := by
  rw [verifyHmac_iff _ _ _ hs, List.map_map]
  exact hexEncode_map_fixed _ (fun n => lower_upper_hexDig n) _

/-! ### Cost instrumentation of the timing-safe comparison

`tseLoop` is the loop of `timingSafeEqual` with an explicit iteration
count, so the comparison cost can be stated and related to the inputs. -/

/-- The comparison loop with an iteration counter: returns the OR
accumulator and the number of positions visited. -/
def tseLoop : Nat → List (Nat × Nat) → Nat × Nat
  | x, [] => (x, 0)
  | x, p :: ps =>
    let r := tseLoop (x ||| (p.1 ^^^ p.2)) ps
    (r.1, r.2 + 1)

/-- Iterations performed by the comparison on a pair of inputs. -/
def tseCost (a b : List Nat) : Nat :=
  if a.length ≠ b.length then 0 else (tseLoop 0 (a.zip b)).2

lemma tseLoop_fst (l : List (Nat × Nat)) :
    ∀ x, (tseLoop x l).1 = l.foldl (fun x p => x ||| (p.1 ^^^ p.2)) x := by
  induction l with
  | nil => intro x; rfl
  | cons p ps ih => intro x; simp [tseLoop, ih, List.foldl_cons]

lemma tseLoop_snd (l : List (Nat × Nat)) : ∀ x, (tseLoop x l).2 = l.length := by
  induction l with
  | nil => intro x; rfl
  | cons p ps ih => intro x; simp [tseLoop, ih]

/-! ### Spec-side reading of the outcome-slot selection (for claim C2) -/

/-- The display names the spec says each side accepts. -/
def specAcceptedNames (side : String) : List String :=
  if side = "YES" then ["Up", "Yes", "YES"] else ["Down", "No", "NO"]

/-- The outcome slot the spec says the resolver selects: the first entry
whose trimmed string equals one of the accepted names, else the fixed
positional default (0 for YES, 1 for NO). -/
def specSelectedSlot (side : String) (outcomes : List String) : Nat :=
  match outcomes.findIdx? (fun o => (specAcceptedNames side).contains (jsTrim o)) with
  | some i => i
  | none => if side = "YES" then 0 else 1

/-- The token identifier at a slot, accepting either the snake_case or the
camelCase field name (the snake_case field wins when truthy). -/
def specTokenAt (tokens : Option (List GToken)) (i : Nat) : Option String :=
  match tokens with
  | none => none
  | some ts =>
    match ts[i]? with
    | none => none
    | some t => jsStrOr t.token_id t.tokenId

/-- The advisory book price surfaced for a slot. -/
def specBookAt (m : GMarket) (i : Nat) : Option JsNum :=
  match m.best_ask with
  | none => none
  | some ba =>
    match ba[i]? with
    | none => none
    | some none => none
    | some (some v) => if jsIsFinite v then some (W1.clamp01 v) else none

lemma specTokenAt_eq (tokens : Option (List GToken)) (i : Nat) :
    jsStrOr ((tokAt tokens i).bind GToken.token_id) ((tokAt tokens i).bind GToken.tokenId)
      = specTokenAt tokens i := by
  cases tokens with
  | none => rfl
  | some ts =>
    show jsStrOr (ts[i]?.bind GToken.token_id) (ts[i]?.bind GToken.tokenId)
        = (match ts[i]? with
           | none => none
           | some t => jsStrOr t.token_id t.tokenId)
    cases ts[i]? with
    | none => rfl
    | some t => rfl

lemma jsFindIndex_use (os : List String) (p : String → Bool) (d : Nat) :
    (if 0 ≤ jsFindIndex os p then (jsFindIndex os p).toNat else d)
      = (match os.findIdx? p with | some i => i | none => d) := by
  unfold jsFindIndex
  cases hf : os.findIdx? p with
  | none => norm_num
  | some i => simp

/-! ### Pipeline evaluation lemmas -/

lemma listStartsWith_append (tag rest : List Nat) : listStartsWith (tag ++ rest) tag = true := by
  unfold listStartsWith
  rw [List.take_left]
  simp

lemma drop7_sigTag (rest : List Nat) : (sigTag ++ rest).drop 7 = rest := by
  have h : sigTag.length = 7 := rfl
  rw [← h, List.drop_left]

/-- Routing of the exported handler on the trade route. -/
lemma workerFetch_trade (env : Env) (req : Req) (ext : Ext) :
    W1.workerFetch env req ext "/trade" "POST" =
      (match W1.handleTrade env req ext with
       | (effs, .ok r) => (effs, r)
       | (effs, .exn m) => (effs, ⟨500, .errB m⟩)) := by
  unfold W1.workerFetch
  rw [if_neg (by decide), if_pos (by decide)]

/-- Evaluation of `handleTrade` once the request is authenticated,
validated and resolved: what remains is price/size computation and the
submission steps. -/
lemma handleTrade_resolved (env : Env) (req : Req) (ext : Ext) (p : Payload)
    (tid : String) (pfb : Option JsNum) (effs : List Effect)
    (hsig : listStartsWith (req.sigHeader.getD []) sigTag = true)
    (hver : W1.verifyHmac env.HUD_SHARED_SECRET req.body ((req.sigHeader.getD []).drop 7) = true)
    (hparse : req.parsedBody = some p)
    (hval : (truthyOptStr p.side && truthyOptNum p.amountUsd && truthyOptNum p.ask) = true)
    (hside : (p.side.getD "" == "YES" || p.side.getD "" == "NO") = true)
    (hres : W1.resolveTokenId ext.fetchOutcome p.conditionId p.marketId (p.side.getD "")
            = (effs, .ok tid pfb)) :
    W1.handleTrade env req ext =
      (let price := W1.clamp01 (jsMul (p.ask.getD .nan) (jsAdd (.fin 1) (W1.effSlippage p)))
       let shares := jsDiv (p.amountUsd.getD .nan) price
       match ext.walletResult with
       | .exn m => (effs, .exn m)
       | .ok _ =>
         match ext.createKeyResult with
         | .exn m => (effs ++ [.createApiKey], .exn m)
         | .ok _ =>
           let order : ClobOrder :=
             ⟨tid, price, shares, (if p.side.getD "" == "YES" then 0 else 1),
              "hud-" ++ toString ext.now, "IOC", false⟩
           match ext.placeResult with
           | .ok placed =>
             (effs ++ [.createApiKey, .placeOrder order],
              .ok ⟨200, .success placed ⟨shares, price, jsMul shares price⟩ ⟨tid, pfb⟩⟩)
           | .exn m =>
             (effs ++ [.createApiKey, .placeOrder order],
              .ok ⟨502, .errB ("place() failed: " ++ m)⟩)) := by
  simp only [W1.handleTrade, hsig, hver, hparse, hval, hside, hres, Bool.true_eq_false,
    if_false, ite_false]

/-- The outward calls of `resolveTokenId` are at most one metadata
lookup. -/
lemma resolveTokenId_effects (f : FetchOutcome) (cid mid : Option String) (side : String) :
    (W1.resolveTokenId f cid mid side).1 = []
    ∨ (W1.resolveTokenId f cid mid side).1 = [.metadataLookup] := by
  unfold W1.resolveTokenId
  by_cases hid : (truthyOptStr cid || truthyOptStr mid) = true
  · rw [if_pos hid]
    cases f with
    | thrown m => right; rfl
    | got r =>
      right
      obtain ⟨rok, rstatus, rjson⟩ := r
      cases rok with
      | false => rfl
      | true =>
        cases rjson with
        | exn m => rfl
        | ok b =>
          cases b with
          | notArray => rfl
          | arr ms =>
            cases ms with
            | nil => rfl
            | cons m rest => rfl
  · rw [if_neg hid]; left; rfl

/-- Recognizer for order-placement effects. -/
def isPlaceOrder : Effect → Bool
  | .placeOrder _ => true
  | _ => false

/-- The price formula of the order builder: clamp01 of ask times one plus
the effective slippage. -/
def tradePrice (p : Payload) : JsNum :=
  W1.clamp01 (jsMul (p.ask.getD .nan) (jsAdd (.fin 1) (W1.effSlippage p)))

/-- The share-size formula of the order builder: amountUsd divided by the
computed price, with no guard against a zero or NaN price. -/
def tradeShares (p : Payload) : JsNum := jsDiv (p.amountUsd.getD .nan) (tradePrice p)

/-- The effect list and success response produced once the order is
accepted: the order record and the fills computed from shares and price. -/
def successOut (effs : List Effect) (tid : String) (pfb : Option JsNum) (ack : String)
    (now : Nat) (sideYes : Bool) (price shares : JsNum) : List Effect × JsResult HttpOut :=
  (effs ++ [.createApiKey, .placeOrder
     ⟨tid, price, shares, (if sideYes then 0 else 1), "hud-" ++ toString now, "IOC", false⟩],
   .ok ⟨200, .success ack ⟨shares, price, jsMul shares price⟩ ⟨tid, pfb⟩⟩)

/-! ### Concrete fixtures used by witnesses and counterexamples -/

/-- Secret bytes ("k"). -/
def kC : List Nat := [107]

/-- Body bytes ("x"). -/
def bodyC : List Nat := [120]

/-- A correctly signed header value: scheme tag plus genuine digest. -/
def sigOkC : List Nat := sigTag ++ hexEncode (hmacSha256 kC bodyC)

/-- Environment with the fixture secret. -/
def envC : Env := ⟨some kC⟩

/-- A market descriptor with conventional outcome names. -/
def mC : GMarket := ⟨some ["Yes", "No"], some [⟨some "A", none⟩, ⟨none, some "B"⟩], none⟩

/-- A metadata fetch delivering the fixture market. -/
def fetchOkC : FetchOutcome := .got ⟨true, 200, .ok (.arr [mC])⟩

/-- A correctly signed request carrying a given payload. -/
def reqWith (p : Payload) : Req := ⟨some sigOkC, bodyC, some p⟩

/-- External collaborators that are never reached (used by rejection
witnesses). -/
def extBase : Ext := ⟨.thrown "offline", .ok (), .ok (), .ok "ack", 0⟩

/-- Collaborators for a fully successful trade. -/
def extTrade : Ext := ⟨fetchOkC, .ok (), .ok (), .ok "ack", 5⟩

/-- A fixture payload: side YES, ask one half, one hundred dollars, two
percent slippage. -/
def pYes : Payload := ⟨some "c1", none, some "YES", some (.fin (1/2)), some (.fin 100), some (.fin (1/50))⟩

lemma sig_reqWith (p : Payload) :
    listStartsWith ((reqWith p).sigHeader.getD []) sigTag = true := by
  show listStartsWith (sigTag ++ hexEncode (hmacSha256 kC bodyC)) sigTag = true
  exact listStartsWith_append _ _

lemma verify_reqWith (p : Payload) :
    W1.verifyHmac envC.HUD_SHARED_SECRET (reqWith p).body
      (((reqWith p).sigHeader.getD []).drop 7) = true := by
  show W1.verifyHmac (some kC) bodyC ((sigTag ++ hexEncode (hmacSha256 kC bodyC)).drop 7) = true
  rw [drop7_sigTag]
  exact verifyHmac_self kC bodyC (by decide)

/-- Evaluation of the JavaScript operations on finite arguments. -/
lemma jsAdd_fin (a b : ℚ) : jsAdd (.fin a) (.fin b) = .fin (a + b) := rfl

lemma jsMul_fin (a b : ℚ) : jsMul (.fin a) (.fin b) = .fin (a * b) := rfl

lemma jsDiv_fin (a b : ℚ) (hb : b ≠ 0) : jsDiv (.fin a) (.fin b) = .fin (a / b) := by
  show (if b = 0 then (if a = 0 then JsNum.nan else if 0 < a then .inf else .ninf)
        else JsNum.fin (a / b)) = _
  rw [if_neg hb]

lemma truthyNum_fin_of_ne (q : ℚ) (h : q ≠ 0) : truthyNum (.fin q) = true := by
  show (q != 0) = true
  rw [bne_iff_ne]
  exact h

/-- Evaluation of `clamp01` on an in-range finite value. -/
lemma clamp01_fin_of_mem (q : ℚ) (h0 : 0 ≤ q) (h1 : q ≤ 1) :
    W1.clamp01 (.fin q) = .fin q := by
  show JsNum.fin (max 0 (min 1 q)) = JsNum.fin q
  rw [min_eq_right h1, max_eq_right h0]

lemma effSlippage_pYes : W1.effSlippage pYes = .fin (1/50) := by
  unfold W1.effSlippage
  show (if truthyNum (.fin (1/50)) then JsNum.fin (1/50) else .fin 0) = .fin (1/50)
  rw [truthyNum_fin_of_ne _ (by norm_num), if_pos rfl]

lemma tradePrice_pYes : tradePrice pYes = .fin (51/100) := by
  unfold tradePrice
  rw [effSlippage_pYes]
  show W1.clamp01 (jsMul (.fin (1/2)) (jsAdd (.fin 1) (.fin (1/50)))) = _
  rw [jsAdd_fin, jsMul_fin]
  rw [show ((1:ℚ)/2 * (1 + 1/50)) = 51/100 from by norm_num]
  exact clamp01_fin_of_mem _ (by norm_num) (by norm_num)

lemma tradeShares_pYes : tradeShares pYes = .fin (10000/51) := by
  unfold tradeShares
  rw [tradePrice_pYes]
  show jsDiv (.fin 100) (.fin (51/100)) = _
  rw [jsDiv_fin _ _ (by norm_num)]
  norm_num

lemma hval_pYes :
    (truthyOptStr pYes.side && truthyOptNum pYes.amountUsd && truthyOptNum pYes.ask) = true := by
  show (truthyOptStr (some "YES") && truthyOptNum (some (.fin 100))
        && truthyOptNum (some (.fin (1/2)))) = true
  show (truthyOptStr (some "YES") && truthyNum (.fin 100) && truthyNum (.fin (1/2))) = true
  rw [truthyNum_fin_of_ne _ (by norm_num), truthyNum_fin_of_ne _ (by norm_num)]
  rfl

/-- A fixture payload with the slippage field absent. -/
def pNoSlip : Payload := ⟨some "c1", none, some "YES", some (.fin (2/5)), some (.fin 50), none⟩

/-- A fixture payload with slippage present but zero. -/
def pSlip0 : Payload := ⟨some "c1", none, some "YES", some (.fin (1/2)), some (.fin 100), some (.fin 0)⟩

/-- A fixture payload whose amountUsd is the falsy number 0. -/
def pZeroAmount : Payload := ⟨some "c1", none, some "YES", some (.fin (1/2)), some (.fin 0), none⟩

/-- Collaborators whose order placement throws. -/
def extPlaceFail : Ext := ⟨fetchOkC, .ok (), .ok (), .exn "exchange down", 7⟩

/-- Collaborators whose credential provisioning throws. -/
def extKeyFail : Ext := ⟨fetchOkC, .ok (), .exn "api key refused", .ok "ack", 7⟩

lemma hval_pNoSlip :
    (truthyOptStr pNoSlip.side && truthyOptNum pNoSlip.amountUsd
      && truthyOptNum pNoSlip.ask) = true := by
  show (truthyOptStr (some "YES") && truthyNum (.fin 50) && truthyNum (.fin (2/5))) = true
  rw [truthyNum_fin_of_ne _ (by norm_num), truthyNum_fin_of_ne _ (by norm_num)]
  rfl

lemma hval_pSlip0 :
    (truthyOptStr pSlip0.side && truthyOptNum pSlip0.amountUsd
      && truthyOptNum pSlip0.ask) = true := by
  show (truthyOptStr (some "YES") && truthyNum (.fin 100) && truthyNum (.fin (1/2))) = true
  rw [truthyNum_fin_of_ne _ (by norm_num), truthyNum_fin_of_ne _ (by norm_num)]
  rfl

/-! ### Claim theorems -/

/-- Claim C2: for every market descriptor and side, the resolver selects
the outcome slot by searching the outcome-name list for the first entry
whose trimmed string equals (case-sensitively) one of the accepted names
of the side (Up/Yes/YES for YES, Down/No/NO for NO), falling back to the
fixed index 0 for YES and 1 for NO; the returned tokenId is the token at
the selected slot, accepting either the token_id or tokenId field name. -/
theorem resolveFromMarket_selects_spec_slot (m : GMarket) (side : String) :
    W1.resolveFromMarket m side =
      (let use := specSelectedSlot side (m.outcomes.getD [])
       let tid := specTokenAt m.tokens use
       if truthyOptStr tid = false then ResolveResult.err "Missing tokenId"
       else ResolveResult.ok (tid.getD "") (specBookAt m use)) := by
  by_cases hs : side = "YES"
  · subst hs
    simp only [W1.resolveFromMarket, specSelectedSlot, specAcceptedNames, specBookAt,
      beq_self_eq_true, if_true, if_pos rfl, specTokenAt_eq, jsFindIndex_use]
  · simp only [W1.resolveFromMarket, specSelectedSlot, specAcceptedNames, specBookAt,
      if_neg hs, specTokenAt_eq, jsFindIndex_use]
    have hb : (side == "YES") = false := by
      simpa using hs
    simp only [hb, Bool.false_eq_true, if_false]

/-- Claim C8: the signature comparison is a constant-time, length-first
equality check: unequal lengths give false at zero comparison cost, and on
equal lengths the loop visits every position, accumulating XORed char-code
differences by bitwise OR, and returns true exactly when the inputs are
equal; the iteration count equals the common length regardless of where
the first mismatch occurs. -/
theorem timingSafeEqual_constant_time (a b : List Nat) :
    (a.length ≠ b.length → W1.timingSafeEqual a b = false)
    ∧ (W1.timingSafeEqual a b = true ↔ a = b)
    ∧ (a.length = b.length →
        W1.timingSafeEqual a b = ((tseLoop 0 (a.zip b)).1 == 0)
        ∧ tseCost a b = a.length) := by
  refine ⟨?_, tse_iff a b, ?_⟩
  · intro h
    unfold W1.timingSafeEqual
    rw [if_pos h]
  · intro h
    constructor
    · unfold W1.timingSafeEqual
      rw [if_neg (by simp [h]), tseLoop_fst]
    · unfold tseCost
      rw [if_neg (by simp [h]), tseLoop_snd, List.length_zip]
      omega

/-- Witness for C8 at concrete inputs: a mid-list mismatch of equal-length
inputs is rejected after visiting both positions, and a length mismatch is
rejected outright. -/
theorem timingSafeEqual_constant_time_witness :
    W1.timingSafeEqual [104, 105] [104, 106] = false
    ∧ tseCost [104, 105] [104, 106] = 2
    ∧ W1.timingSafeEqual [104] [104, 106] = false := by
  have h := timingSafeEqual_constant_time [104, 105] [104, 106]
  have h2 := timingSafeEqual_constant_time [104] [104, 106]
  refine ⟨?_, ?_, h2.1 (by decide)⟩
  · have hne : ¬ (W1.timingSafeEqual [104, 105] [104, 106] = true) :=
      fun ht => (by decide : ([104, 105] : List Nat) ≠ [104, 106]) (h.2.1.mp ht)
    simpa using hne
  · simpa using (h.2.2 (by decide)).2

/-- Claim C9: the two implementations of the request-handling pipeline
(src/worker.js and src/unnamed/part_000) produce the same response status,
body and outward calls for every request, environment and behaviour of the
external collaborators. -/
theorem workers_equivalent (env : Env) (req : Req) (ext : Ext) (path method : String) :
    W1.workerFetch env req ext path method = W2.workerFetch env req ext path method := by
  obtain ⟨fo, wr, ckr, pr, now⟩ := ext
  cases pr <;> rfl

/-- Claim C3 (amended): with a nonempty secret, the genuine lowercase-hex
HMAC-SHA256 digest of the body always verifies, and verification succeeds
exactly when the lowercased presented signature equals that digest — so a
signature whose lowercase form differs from the digest is rejected, while
a case variant of the digest (for example its uppercased form) still
passes; with an absent or empty secret, verify returns false on every
input. -/
theorem verifyHmac_characterization (s msg sig : List Nat) (hs : s ≠ []) :
    W1.verifyHmac (some s) msg (hexEncode (hmacSha256 s msg)) = true
    ∧ (W1.verifyHmac (some s) msg sig = true ↔
        sig.map lowerAscii = hexEncode (hmacSha256 s msg))
    ∧ W1.verifyHmac none msg sig = false
    ∧ W1.verifyHmac (some []) msg sig = false :=
  ⟨verifyHmac_self s msg hs, verifyHmac_iff s msg sig hs, rfl, rfl⟩

/-- Witness for C3 (amended) at concrete bytes: the genuine digest of body
"x" under secret "k" verifies, and an absent secret fails closed. -/
theorem verifyHmac_characterization_witness :
    W1.verifyHmac (some [107]) [120] (hexEncode (hmacSha256 [107] [120])) = true
    ∧ W1.verifyHmac none [120] [] = false := by
  have h := verifyHmac_characterization [107] [120] [] (by decide)
  exact ⟨h.1, h.2.2.1⟩

set_option maxRecDepth 40000 in
/-- Claim C3 counterexample: for secret byte 107 ("k") and body byte 120
("x"), the uppercased digest differs from the digest as a string yet still
verifies, because `verifyHmac` lowercases the presented signature before
comparing — refuting the claim that verification fails for every presented
signature that differs from the digest. -/
theorem verifyHmac_case_mutation_counterexample :
    W1.verifyHmac (some [107]) [120]
        ((hexEncode (hmacSha256 [107] [120])).map upperAscii) = true
    ∧ (hexEncode (hmacSha256 [107] [120])).map upperAscii
        ≠ hexEncode (hmacSha256 [107] [120]) := by
  refine ⟨verifyHmac_upper [107] [120] (by decide), ?_⟩
  decide

/-- Claim C4: every POST /trade request whose signature header is missing
or lacks the sha256= scheme tag, or whose presented signature the HMAC
check rejects, is answered with status 401 and performs no outward call:
no metadata lookup, no credential provisioning, no order placement. -/
theorem invalid_signature_isolated (env : Env) (req : Req) (ext : Ext)
    (h : listStartsWith (req.sigHeader.getD []) sigTag = false
       ∨ (listStartsWith (req.sigHeader.getD []) sigTag = true
          ∧ W1.verifyHmac env.HUD_SHARED_SECRET req.body
              ((req.sigHeader.getD []).drop 7) = false)) :
    (W1.workerFetch env req ext "/trade" "POST").1 = []
    ∧ (W1.workerFetch env req ext "/trade" "POST").2.status = 401 := by
  rw [workerFetch_trade]
  have hh : W1.handleTrade env req ext = ([], .ok ⟨401, .errB "Missing/invalid signature"⟩)
      ∨ W1.handleTrade env req ext = ([], .ok ⟨401, .errB "Signature mismatch"⟩) := by
    rcases h with h | ⟨h1, h2⟩
    · left
      simp [W1.handleTrade, h]
    · right
      simp [W1.handleTrade, h1, h2]
  rcases hh with hh | hh <;> rw [hh] <;> exact ⟨rfl, rfl⟩

/-- Witness for C4: a request with no signature header at all is answered
401 with an empty effect list. -/
theorem invalid_signature_isolated_witness :
    (W1.workerFetch envC ⟨none, [], none⟩ extBase "/trade" "POST").1 = []
    ∧ (W1.workerFetch envC ⟨none, [], none⟩ extBase "/trade" "POST").2.status = 401 :=
  invalid_signature_isolated envC ⟨none, [], none⟩ extBase (Or.inl (by decide))

/-- Claim C1: for every request that passes signature verification,
payload validation and market resolution and whose submission succeeds,
the computed order price is clamp01(ask * (1 + slippage)) for the
effective slippage, the share size is amountUsd / price (JavaScript
division, with no guard against a zero or NaN price), and the success
fills record is exactly sharesBought = shares, avgPrice = price and
costUsd = shares * price. -/
theorem trade_price_shares_fills (env : Env) (req : Req) (ext : Ext) (p : Payload)
    (tid : String) (pfb : Option JsNum) (effs : List Effect) (ack : String)
    (hsig : listStartsWith (req.sigHeader.getD []) sigTag = true)
    (hver : W1.verifyHmac env.HUD_SHARED_SECRET req.body
        ((req.sigHeader.getD []).drop 7) = true)
    (hparse : req.parsedBody = some p)
    (hval : (truthyOptStr p.side && truthyOptNum p.amountUsd && truthyOptNum p.ask) = true)
    (hside : (p.side.getD "" == "YES" || p.side.getD "" == "NO") = true)
    (hres : W1.resolveTokenId ext.fetchOutcome p.conditionId p.marketId (p.side.getD "")
            = (effs, .ok tid pfb))
    (hw : ext.walletResult = .ok ()) (hk : ext.createKeyResult = .ok ())
    (hp : ext.placeResult = .ok ack) :
    W1.handleTrade env req ext =
      successOut effs tid pfb ack ext.now (p.side.getD "" == "YES")
        (tradePrice p) (tradeShares p) := by
  rw [handleTrade_resolved env req ext p tid pfb effs hsig hver hparse hval hside hres,
    hw, hk, hp]
  rfl

/-- Witness for C1: the end-to-end fixture with ask one half, slippage two
percent and one hundred dollars produces price 51/100, shares 10000/51 and
cost exactly 100, with fills mirroring those values. -/
theorem trade_price_shares_fills_witness :
    W1.handleTrade envC (reqWith pYes) extTrade =
      ([.metadataLookup, .createApiKey, .placeOrder
         ⟨"A", .fin (51/100), .fin (10000/51), 0, "hud-5", "IOC", false⟩],
       .ok ⟨200, .success "ack" ⟨.fin (10000/51), .fin (51/100), .fin 100⟩ ⟨"A", none⟩⟩) := by
  have h := trade_price_shares_fills envC (reqWith pYes) extTrade pYes "A" none
    [.metadataLookup] "ack" (sig_reqWith pYes) (verify_reqWith pYes) rfl
    hval_pYes (by decide) (by decide) rfl rfl rfl
  refine h.trans ?_
  rw [show successOut [Effect.metadataLookup] "A" none "ack" extTrade.now
        (pYes.side.getD "" == "YES") (tradePrice pYes) (tradeShares pYes)
      = successOut [Effect.metadataLookup] "A" none "ack" 5 true
        (.fin (51/100)) (.fin (10000/51)) from by
    rw [tradePrice_pYes, tradeShares_pYes]
    rfl]
  unfold successOut
  rw [jsMul_fin]
  rw [show ((10000:ℚ)/51 * (51/100)) = 100 from by norm_num]
  rfl

/-- Claim C7: for every authenticated request whose body parses as JSON,
the handler answers 400 with error "Missing side/amountUsd/ask" whenever
side, amountUsd or ask is absent or falsy (a numeric 0 counts as
missing), and 400 with error "side must be YES or NO" whenever side is
truthy but not exactly the string YES or NO; in both cases no outward
call is performed. -/
theorem validation_rejects (env : Env) (req : Req) (ext : Ext) (p : Payload)
    (hsig : listStartsWith (req.sigHeader.getD []) sigTag = true)
    (hver : W1.verifyHmac env.HUD_SHARED_SECRET req.body
        ((req.sigHeader.getD []).drop 7) = true)
    (hparse : req.parsedBody = some p) :
    ((truthyOptStr p.side && truthyOptNum p.amountUsd && truthyOptNum p.ask) = false →
      W1.handleTrade env req ext = ([], .ok ⟨400, .errB "Missing side/amountUsd/ask"⟩))
    ∧ ((truthyOptStr p.side && truthyOptNum p.amountUsd && truthyOptNum p.ask) = true →
       (p.side.getD "" == "YES" || p.side.getD "" == "NO") = false →
       W1.handleTrade env req ext = ([], .ok ⟨400, .errB "side must be YES or NO"⟩)) := by
  constructor
  · intro hval
    simp [W1.handleTrade, hsig, hver, hparse, hval]
  · intro hval hside
    simp [W1.handleTrade, hsig, hver, hparse, hval, hside]

/-- Witness for C7: amountUsd 0 on an otherwise valid request is treated
as missing and rejected 400 with no outward call. -/
theorem validation_rejects_witness :
    W1.handleTrade envC (reqWith pZeroAmount) extBase
      = ([], .ok ⟨400, .errB "Missing side/amountUsd/ask"⟩) := by
  refine (validation_rejects envC (reqWith pZeroAmount) extBase pZeroAmount
    (sig_reqWith pZeroAmount) (verify_reqWith pZeroAmount) rfl).1 ?_
  show (truthyOptStr (some "YES") && truthyNum (.fin 0) && truthyNum (.fin (1/2))) = false
  rw [show truthyNum (.fin 0) = ((0:ℚ) != 0) from rfl, bne_self_eq_false]
  simp only [Bool.and_false, Bool.false_and]

/-- Claim C5 (amended): for a request reaching the submission stage, a
`place()` exception produces a 502 whose error message carries the
underlying failure text behind the "place() failed: " tag, and exactly
one order placement is attempted (no retry); an exception thrown by the
credential-provisioning step instead escapes `handleTrade` and the
top-level handler answers 500 carrying the raw message, not 502. -/
theorem submission_failure_behaviour (env : Env) (req : Req) (ext : Ext) (p : Payload)
    (tid : String) (pfb : Option JsNum) (effs : List Effect)
    (hsig : listStartsWith (req.sigHeader.getD []) sigTag = true)
    (hver : W1.verifyHmac env.HUD_SHARED_SECRET req.body
        ((req.sigHeader.getD []).drop 7) = true)
    (hparse : req.parsedBody = some p)
    (hval : (truthyOptStr p.side && truthyOptNum p.amountUsd && truthyOptNum p.ask) = true)
    (hside : (p.side.getD "" == "YES" || p.side.getD "" == "NO") = true)
    (hres : W1.resolveTokenId ext.fetchOutcome p.conditionId p.marketId (p.side.getD "")
            = (effs, .ok tid pfb))
    (hw : ext.walletResult = .ok ()) :
    (∀ m, ext.createKeyResult = .exn m →
       W1.workerFetch env req ext "/trade" "POST" = (effs ++ [.createApiKey], ⟨500, .errB m⟩))
    ∧ (∀ m, ext.createKeyResult = .ok () → ext.placeResult = .exn m →
       W1.workerFetch env req ext "/trade" "POST" =
         (effs ++ [.createApiKey, .placeOrder
            ⟨tid, tradePrice p, tradeShares p, (if p.side.getD "" == "YES" then 0 else 1),
             "hud-" ++ toString ext.now, "IOC", false⟩],
          ⟨502, .errB ("place() failed: " ++ m)⟩)
       ∧ (effs ++ [Effect.createApiKey, .placeOrder
            ⟨tid, tradePrice p, tradeShares p, (if p.side.getD "" == "YES" then 0 else 1),
             "hud-" ++ toString ext.now, "IOC", false⟩]).countP isPlaceOrder = 1) := by
  have hbase := handleTrade_resolved env req ext p tid pfb effs hsig hver hparse hval hside hres
  have heffs : effs = [] ∨ effs = [.metadataLookup] := by
    have h := resolveTokenId_effects ext.fetchOutcome p.conditionId p.marketId (p.side.getD "")
    rw [hres] at h
    exact h
  constructor
  · intro m hk
    rw [workerFetch_trade, hbase, hw, hk]
  · intro m hk hplace
    constructor
    · rw [workerFetch_trade, hbase, hw, hk, hplace]
      rfl
    · rcases heffs with he | he <;> subst he <;>
        simp [isPlaceOrder, List.countP_cons, List.countP_append]

/-- Witness for C5 (amended): a throwing `place()` yields 502 with the
underlying text in the message and a single placement attempt. -/
theorem submission_failure_behaviour_witness :
    W1.workerFetch envC (reqWith pYes) extPlaceFail "/trade" "POST" =
      ([.metadataLookup, .createApiKey, .placeOrder
         ⟨"A", .fin (51/100), .fin (10000/51), 0, "hud-7", "IOC", false⟩],
       ⟨502, .errB "place() failed: exchange down"⟩) := by
  have h := ((submission_failure_behaviour envC (reqWith pYes) extPlaceFail pYes "A" none
    [.metadataLookup] (sig_reqWith pYes) (verify_reqWith pYes) rfl hval_pYes
    (by decide) (by decide) rfl).2 "exchange down" rfl rfl).1
  refine h.trans ?_
  rw [tradePrice_pYes, tradeShares_pYes]
  rfl

/-- Claim C5 counterexample: with the credential-provisioning call
throwing "api key refused" on a request that reaches the submission
stage, the worker answers 500 with the raw message — not the 502
submission error the claim requires for exceptions thrown by the
credential-provisioning step. -/
theorem submission_claim_counterexample :
    W1.workerFetch envC (reqWith pYes) extKeyFail "/trade" "POST" =
      ([.metadataLookup, .createApiKey], ⟨500, .errB "api key refused"⟩) := by
  rw [workerFetch_trade]
  rw [handleTrade_resolved envC (reqWith pYes) extKeyFail pYes "A" none [.metadataLookup]
    (sig_reqWith pYes) (verify_reqWith pYes) rfl hval_pYes (by decide) (by decide)]
  rfl

/-- Claim C6 (amended): the slippage default 0.01 applies only when the
field is absent from the payload, giving computed price
clamp01(ask * (1 + 1/100)); a present but falsy slippage (for example 0)
is collapsed to 0 by the `slippage || 0` step, giving computed price
clamp01(ask * 1) rather than clamp01(ask * 1.01). -/
theorem slippage_default_behaviour (env : Env) (req : Req) (ext : Ext) (p : Payload)
    (tid : String) (pfb : Option JsNum) (effs : List Effect) (ack : String)
    (hsig : listStartsWith (req.sigHeader.getD []) sigTag = true)
    (hver : W1.verifyHmac env.HUD_SHARED_SECRET req.body
        ((req.sigHeader.getD []).drop 7) = true)
    (hparse : req.parsedBody = some p)
    (hval : (truthyOptStr p.side && truthyOptNum p.amountUsd && truthyOptNum p.ask) = true)
    (hside : (p.side.getD "" == "YES" || p.side.getD "" == "NO") = true)
    (hres : W1.resolveTokenId ext.fetchOutcome p.conditionId p.marketId (p.side.getD "")
            = (effs, .ok tid pfb))
    (hw : ext.walletResult = .ok ()) (hk : ext.createKeyResult = .ok ())
    (hp : ext.placeResult = .ok ack) :
    (p.slippage = none →
      W1.handleTrade env req ext =
        successOut effs tid pfb ack ext.now (p.side.getD "" == "YES")
          (W1.clamp01 (jsMul (p.ask.getD .nan) (.fin (101/100))))
          (jsDiv (p.amountUsd.getD .nan)
            (W1.clamp01 (jsMul (p.ask.getD .nan) (.fin (101/100))))))
    ∧ (∀ v, p.slippage = some v → truthyNum v = false →
      W1.handleTrade env req ext =
        successOut effs tid pfb ack ext.now (p.side.getD "" == "YES")
          (W1.clamp01 (jsMul (p.ask.getD .nan) (.fin 1)))
          (jsDiv (p.amountUsd.getD .nan)
            (W1.clamp01 (jsMul (p.ask.getD .nan) (.fin 1))))) := by
  have hbase := handleTrade_resolved env req ext p tid pfb effs hsig hver hparse hval hside hres
  constructor
  · intro hslip
    have he : W1.effSlippage p = .fin (1/100) := by
      unfold W1.effSlippage
      rw [hslip]
      show (if truthyNum (.fin (1/100)) then JsNum.fin (1/100) else .fin 0) = _
      rw [truthyNum_fin_of_ne _ (by norm_num), if_pos rfl]
    rw [hbase, hw, hk, hp, he]
    rw [show jsAdd (.fin 1) (.fin (1/100)) = .fin (101/100) from by
      rw [jsAdd_fin]
      norm_num]
    rfl
  · intro v hslip hv
    have he : W1.effSlippage p = .fin 0 := by
      unfold W1.effSlippage
      rw [hslip]
      show (if truthyNum v then v else JsNum.fin 0) = _
      rw [hv]
      rfl
    rw [hbase, hw, hk, hp, he]
    rw [show jsAdd (.fin 1) (.fin 0) = .fin 1 from by
      rw [jsAdd_fin]
      norm_num]
    rfl

/-- Witness for C6 (amended): with slippage absent, ask 2/5 and 50
dollars, the computed price is clamp01(2/5 * 101/100) = 101/250 and the
shares are 50 / (101/250) = 12500/101. -/
theorem slippage_default_behaviour_witness :
    W1.handleTrade envC (reqWith pNoSlip) extTrade =
      ([.metadataLookup, .createApiKey, .placeOrder
         ⟨"A", .fin (101/250), .fin (12500/101), 0, "hud-5", "IOC", false⟩],
       .ok ⟨200, .success "ack" ⟨.fin (12500/101), .fin (101/250), .fin 50⟩ ⟨"A", none⟩⟩) := by
  have h := (slippage_default_behaviour envC (reqWith pNoSlip) extTrade pNoSlip "A" none
    [.metadataLookup] "ack" (sig_reqWith pNoSlip) (verify_reqWith pNoSlip) rfl hval_pNoSlip
    (by decide) (by decide) rfl rfl rfl).1 rfl
  refine h.trans ?_
  rw [show W1.clamp01 (jsMul (pNoSlip.ask.getD .nan) (.fin (101/100))) = .fin (101/250) from by
    show W1.clamp01 (jsMul (.fin (2/5)) (.fin (101/100))) = _
    rw [jsMul_fin, show ((2:ℚ)/5 * (101/100)) = 101/250 from by norm_num]
    exact clamp01_fin_of_mem _ (by norm_num) (by norm_num)]
  rw [show jsDiv (pNoSlip.amountUsd.getD .nan) (JsNum.fin (101/250)) = .fin (12500/101) from by
    show jsDiv (.fin 50) (.fin (101/250)) = _
    rw [jsDiv_fin _ _ (by norm_num)]
    norm_num]
  unfold successOut
  rw [jsMul_fin, show ((12500:ℚ)/101 * (101/250)) = 50 from by norm_num]
  rfl

/-- Claim C6 counterexample: with slippage present but 0, ask 1/2 and 100
dollars, the pipeline computes price 1/2 (clamp01 of ask times 1) and
shares 200, whereas the claim demands price clamp01(ask * 1.01), which is
101/200 and differs from 1/2. -/
theorem slippage_claim_counterexample :
    W1.handleTrade envC (reqWith pSlip0) extTrade =
      ([.metadataLookup, .createApiKey, .placeOrder
         ⟨"A", .fin (1/2), .fin 200, 0, "hud-5", "IOC", false⟩],
       .ok ⟨200, .success "ack" ⟨.fin 200, .fin (1/2), .fin 100⟩ ⟨"A", none⟩⟩)
    ∧ JsNum.fin (1/2) ≠ W1.clamp01 (jsMul (.fin (1/2)) (.fin (101/100))) := by
  constructor
  · rw [handleTrade_resolved envC (reqWith pSlip0) extTrade pSlip0 "A" none [.metadataLookup]
      (sig_reqWith pSlip0) (verify_reqWith pSlip0) rfl hval_pSlip0 (by decide) (by decide)]
    have he : W1.effSlippage pSlip0 = .fin 0 := by
      unfold W1.effSlippage
      show (if truthyNum (.fin 0) then JsNum.fin 0 else .fin 0) = _
      exact ite_self _
    rw [he]
    rw [show jsAdd (.fin 1) (.fin 0) = .fin 1 from by
      rw [jsAdd_fin]
      norm_num]
    simp only [show W1.clamp01 (jsMul (pSlip0.ask.getD .nan) (.fin 1)) = .fin (1/2) from by
        show W1.clamp01 (jsMul (.fin (1/2)) (.fin 1)) = _
        rw [jsMul_fin, mul_one]
        exact clamp01_fin_of_mem _ (by norm_num) (by norm_num),
      show jsDiv (pSlip0.amountUsd.getD .nan) (JsNum.fin (1/2)) = .fin 200 from by
        show jsDiv (.fin 100) (.fin (1/2)) = _
        rw [jsDiv_fin _ _ (by norm_num)]
        norm_num,
      show jsMul (JsNum.fin 200) (.fin (1/2)) = .fin 100 from by
        rw [jsMul_fin]
        norm_num]
    rfl
  · intro hcontra
    rw [jsMul_fin, show ((1:ℚ)/2 * (101/100)) = 101/200 from by norm_num,
      clamp01_fin_of_mem _ (by norm_num) (by norm_num)] at hcontra
    have : (1:ℚ)/2 = 101/200 := JsNum.fin.inj hcontra
    norm_num at this

/-- Claim C10: for every successful trade whose computed price is a
nonzero finite rational and whose amountUsd is finite, the costUsd
reported in fills equals the requested amountUsd exactly, since
costUsd = (amountUsd / price) * price = amountUsd; the reported cost
never reflects the book price or a slippage-adjusted total. -/
theorem costUsd_equals_amountUsd (env : Env) (req : Req) (ext : Ext) (p : Payload)
    (tid : String) (pfb : Option JsNum) (effs : List Effect) (ack : String) (a q : ℚ)
    (hsig : listStartsWith (req.sigHeader.getD []) sigTag = true)
    (hver : W1.verifyHmac env.HUD_SHARED_SECRET req.body
        ((req.sigHeader.getD []).drop 7) = true)
    (hparse : req.parsedBody = some p)
    (hval : (truthyOptStr p.side && truthyOptNum p.amountUsd && truthyOptNum p.ask) = true)
    (hside : (p.side.getD "" == "YES" || p.side.getD "" == "NO") = true)
    (hres : W1.resolveTokenId ext.fetchOutcome p.conditionId p.marketId (p.side.getD "")
            = (effs, .ok tid pfb))
    (hw : ext.walletResult = .ok ()) (hk : ext.createKeyResult = .ok ())
    (hp : ext.placeResult = .ok ack)
    (ha : p.amountUsd = some (.fin a))
    (hq : W1.clamp01 (jsMul (p.ask.getD .nan) (jsAdd (.fin 1) (W1.effSlippage p))) = .fin q)
    (hq0 : q ≠ 0) :
    W1.handleTrade env req ext =
      (effs ++ [.createApiKey, .placeOrder
         ⟨tid, .fin q, .fin (a / q), (if p.side.getD "" == "YES" then 0 else 1),
          "hud-" ++ toString ext.now, "IOC", false⟩],
       .ok ⟨200, .success ack ⟨.fin (a / q), .fin q, .fin a⟩ ⟨tid, pfb⟩⟩) := by
  rw [handleTrade_resolved env req ext p tid pfb effs hsig hver hparse hval hside hres,
    hw, hk, hp, hq, ha, Option.getD_some]
  simp only [jsDiv_fin a q hq0, jsMul_fin, div_mul_cancel₀ a hq0]

/-- Witness for C10: for the fixture trade (amountUsd 100, computed price
51/100) the reported costUsd is exactly 100. -/
theorem costUsd_equals_amountUsd_witness :
    W1.handleTrade envC (reqWith pYes) extTrade =
      ([.metadataLookup, .createApiKey, .placeOrder
         ⟨"A", .fin (51/100), .fin (100 / (51/100)), 0, "hud-5", "IOC", false⟩],
       .ok ⟨200, .success "ack" ⟨.fin (100 / (51/100)), .fin (51/100), .fin 100⟩ ⟨"A", none⟩⟩) := by
  have hq : W1.clamp01 (jsMul (pYes.ask.getD .nan)
      (jsAdd (.fin 1) (W1.effSlippage pYes))) = .fin (51/100) := tradePrice_pYes
  have h := costUsd_equals_amountUsd envC (reqWith pYes) extTrade pYes "A" none
    [.metadataLookup] "ack" 100 (51/100) (sig_reqWith pYes) (verify_reqWith pYes) rfl
    hval_pYes (by decide) (by decide) rfl rfl rfl rfl hq (by norm_num)
  exact h

end PolyTrader
